import Mathlib

/-!
Verification of the flow-log parser (`src/flow_log_parser.py`).

The program classifies network flow-log records by destination port and
protocol using a user-supplied lookup table and emits aggregate counts.
This file shallowly embeds its pure core:

* Python `dict` with insertion order is modelled as an association list
  (`dictFind`, `dictInsert`): updating an existing key replaces the value
  in place, a new key is appended at the end.
* `str.split()` (no argument) is `pySplit`: split on whitespace runs,
  dropping empty pieces.  Python string operations (`split`, `lower`,
  `strip`, `int(...)`) are embedded as structural functions on the
  character list of the string, so the kernel can evaluate them.
* `int(s)` is `pyToInt`; failure models the `ValueError` Python raises.
* f-string rendering of an integer is `pyIntStr`, a hand-rolled decimal
  renderer (fuel-based so the kernel can evaluate it).
* File reading is modelled by passing the already-read contents as an
  `Except`: `.error` models a resource that cannot be opened or read,
  `.ok` carries the rows/lines.  `print` diagnostics are modelled as
  returned lists of message strings.
-/

namespace FlowLog

/-! Part 1: Python dict model -/

section Dict

variable {K V : Type} [DecidableEq K]

/-- First binding of `k` in the association list (Python `d[k]` / `k in d`). -/
def dictFind : List (K × V) → K → Option V
  | [], _ => none
  | (k', v') :: rest, k => if k' = k then some v' else dictFind rest k

/-- Python `d[k] = v`: replace the first binding of `k` in place, or append
a new binding at the end (insertion order of a Python dict). -/
def dictInsert : List (K × V) → K → V → List (K × V)
  | [], k, v => [(k, v)]
  | (k', v') :: rest, k, v =>
      if k' = k then (k, v) :: rest else (k', v') :: dictInsert rest k v

/-- Sum of all values of a `Nat`-valued dict. -/
def sumValues (d : List (K × Nat)) : Nat :=
  (d.map fun p => p.2).sum

end Dict

/-! Part 2: Python string helpers -/

/-- Splitter for Python `str.split()`: consume the characters, `acc`
holding the current field reversed; whitespace ends the field, empty
fields are dropped. -/
def splitWsAux : List Char → List Char → List (List Char)
  | [], acc => if acc = [] then [] else [acc.reverse]
  | c :: rest, acc =>
      if c.isWhitespace then
        (if acc = [] then [] else [acc.reverse]) ++ splitWsAux rest []
      else splitWsAux rest (c :: acc)

/-- Python `str.split()` with no argument: split on runs of whitespace,
no empty fields. -/
def pySplit (s : String) : List String :=
  (splitWsAux s.data []).map String.mk

/-- Python `str.lower()` (ASCII case mapping). -/
def pyToLower (s : String) : String :=
  String.mk (s.data.map Char.toLower)

/-- Python `str.strip()`: drop leading and trailing whitespace. -/
def pyStrip (s : String) : String :=
  String.mk ((s.data.dropWhile Char.isWhitespace).reverse.dropWhile Char.isWhitespace).reverse

/-- Numeric value of a list of decimal digit characters. -/
def digitsVal (l : List Char) : Nat :=
  l.foldl (fun n c => n * 10 + (c.toNat - '0'.toNat)) 0

/-- Python `int(s)`: optional surrounding whitespace, an optional sign,
then at least one decimal digit; anything else raises `ValueError`,
modelled as `none`. -/
def pyToInt (s : String) : Option Int :=
  match (pyStrip s).data with
  | '-' :: rest =>
      if rest ≠ [] ∧ rest.all Char.isDigit then some (-(digitsVal rest : Int))
      else none
  | '+' :: rest =>
      if rest ≠ [] ∧ rest.all Char.isDigit then some (digitsVal rest)
      else none
  | l =>
      if l ≠ [] ∧ l.all Char.isDigit then some (digitsVal l)
      else none

/-- Decimal digits of `n`, most significant first (`[]` for `0`);
`fuel`-based structural recursion so that the kernel can evaluate it.
Any `fuel ≥ n` gives the true digits. -/
def decDigits : Nat → Nat → List Char
  | 0, _ => []
  | fuel + 1, n =>
      if n = 0 then [] else decDigits fuel (n / 10) ++ [Nat.digitChar (n % 10)]

/-- Characters of Python `str(n)` for a natural number. -/
def natChars (n : Nat) : List Char :=
  if n = 0 then ['0'] else decDigits n n

/-- Characters of Python `str(i)` for an integer. -/
def intChars (i : Int) : List Char :=
  if i < 0 then '-' :: natChars i.natAbs else natChars i.natAbs

/-- Python `str(i)` / f-string rendering of an integer. -/
def pyIntStr (i : Int) : String :=
  String.mk (intChars i)

/-- Python `str(n)` for a natural number. -/
def pyNatStr (n : Nat) : String :=
  String.mk (natChars n)

/-! Part 3: protocol registries (external collaborators of the program) -/

/-- Modelled from the spec: the host platform's protocol-name registry
consulted by `socket.getprotobyname` (name → IANA number), an implicit,
environment-dependent table; represented by its well-known entries,
canonical uppercase names alongside the lowercase registry spellings. -/
def protocolRegistry : List (String × Nat) :=
  [("icmp", 1), ("ICMP", 1), ("igmp", 2), ("IGMP", 2),
   ("tcp", 6), ("TCP", 6), ("udp", 17), ("UDP", 17),
   ("sctp", 132), ("SCTP", 132)]

/-- Modelled from the spec: the `IPPROTO_*` constants of the `socket`
module (number → canonical uppercase short name), from which
`get_protocol_name` builds its number-to-name table. -/
def ipprotoTable : List (Int × String) :=
  [(1, "ICMP"), (2, "IGMP"), (6, "TCP"), (17, "UDP"), (132, "SCTP")]

/-- The well-known (name, number) pairs on which the registry and the
`IPPROTO_*` table agree; the round-trip set of the spec. -/
def wellKnownProtocols : List (String × Nat) :=
  [("ICMP", 1), ("IGMP", 2), ("TCP", 6), ("UDP", 17), ("SCTP", 132)]

/-! Part 4: get_protocol_number (flow_log_parser.py lines 11-24) -/

/-- Embeds `get_protocol_number`: look the name up in the platform registry and
return the number as a string; an unrecognized name raises
`ValueError(f"Invalid protocol name: \x7bprotocol_name\x7d.")`, modelled
as `Except.error` with that message. -/
def get_protocol_number (protocol_name : String) : Except String String :=
  match dictFind protocolRegistry protocol_name with
  | some n => Except.ok (pyNatStr n)
  | none => Except.error ("Invalid protocol name: " ++ protocol_name ++ ".")

/-! Part 5: load_lookup_table (flow_log_parser.py lines 26-45) -/

/-- One row of the lookup CSV, as the `csv.DictReader` hands it to the core. -/
structure Row where
  dstport : String
  protocol : String
  tag : String
deriving DecidableEq, Repr

/-- The key a row contributes, when its protocol name resolves. -/
def rowKey (r : Row) : Option (String × String) :=
  match get_protocol_number r.protocol with
  | Except.ok num => some (r.dstport, num)
  | Except.error _ => none

/-- Whether a row's protocol name resolves. -/
def resolvable (r : Row) : Bool :=
  match get_protocol_number r.protocol with
  | Except.ok _ => true
  | Except.error _ => false

/-- The row loop of `load_lookup_table`: for each row, resolve the protocol
name; on success store `(dstport, number) ↦ tag.lower()`, on `ValueError`
skip the row. -/
def load_lookup_rows (rows : List Row) : List ((String × String) × String) :=
  rows.foldl
    (fun lookup r =>
      match get_protocol_number r.protocol with
      | Except.ok num => dictInsert lookup (r.dstport, num) (pyToLower r.tag)
      | Except.error _ => lookup)
    []

/-- Diagnostics that `load_lookup_table` prints: one
`"Skipping invalid entry in lookup table: ..."` line per unresolvable row. -/
def lookup_diagnostics (rows : List Row) : List String :=
  rows.filterMap fun r =>
    match get_protocol_number r.protocol with
    | Except.ok _ => none
    | Except.error err => some ("Skipping invalid entry in lookup table: " ++ err)

/-- Embeds `load_lookup_table`: the source is the rows of the CSV file when it can
be opened and read, otherwise the error of the failed read; a failed read
is re-raised as `IOError(f"Failed to read the lookup table file: ...")`,
while row-level failures are handled inside the loop. -/
def load_lookup_table (src : Except String (List Row)) :
    Except String (List ((String × String) × String) × List String) :=
  match src with
  | Except.ok rows => Except.ok (load_lookup_rows rows, lookup_diagnostics rows)
  | Except.error e => Except.error ("Failed to read the lookup table file: " ++ e)

/-! Part 6: load_dstport_protocol_flow_logs (flow_log_parser.py lines 47-67) -/

/-- The per-line body of `load_dstport_protocol_flow_logs`: split the line
on whitespace; with at least 8 fields the record is
`(fields[6], fields[7])`, otherwise the line is skipped. -/
def parseLine (line : String) : Option (String × String) :=
  let fields := pySplit line
  if 8 ≤ fields.length then some (fields.getD 6 "", fields.getD 7 "") else none

/-- The line loop of `load_dstport_protocol_flow_logs`: append
`(fields[6], fields[7])` for every line with at least 8 whitespace fields,
skip the others. -/
def load_flow_lines (lines : List String) : List (String × String) :=
  lines.foldl
    (fun dstport_proto line =>
      let fields := pySplit line
      if 8 ≤ fields.length then
        dstport_proto ++ [(fields.getD 6 "", fields.getD 7 "")]
      else
        dstport_proto)
    []

/-- The diagnostics the line loop prints: one
`"Skipping incomplete line: ..."` per line with fewer than 8 fields. -/
def flow_diagnostics (lines : List String) : List String :=
  lines.filterMap fun line =>
    if 8 ≤ (pySplit line).length then none
    else some ("Skipping incomplete line: " ++ pyStrip line)

/-- Embeds `load_dstport_protocol_flow_logs`: the source is the lines of the flow
log file when it can be opened and read, otherwise the error of the failed
read, re-raised as `IOError(f"Failed to read the flow log file: ...")`;
line-level failures are handled inside the loop. -/
def load_dstport_protocol_flow_logs (src : Except String (List String)) :
    Except String (List (String × String) × List String) :=
  match src with
  | Except.ok lines => Except.ok (load_flow_lines lines, flow_diagnostics lines)
  | Except.error e => Except.error ("Failed to read the flow log file: " ++ e)

/-! Part 7: map_port_proto_tag (flow_log_parser.py lines 69-86) -/

/-- The tag a record is classified with: the lookup-table entry for
`(port, protocolNumber)`, or `"untagged"` when absent. -/
def tagOf (lookup : List ((String × String) × String)) (key : String × String) :
    String :=
  match dictFind lookup key with
  | some tag => tag
  | none => "untagged"

/-- Embeds `map_port_proto_tag`: for each record take its tag (or `"untagged"`),
initialize the tag's counter to 0 when first seen, then increment it. -/
def map_port_proto_tag (lookup : List ((String × String) × String))
    (dstport_proto : List (String × String)) : List (String × Nat) :=
  dstport_proto.foldl
    (fun tag_count_dict key =>
      let tag := tagOf lookup key
      let d :=
        match dictFind tag_count_dict tag with
        | some _ => tag_count_dict
        | none => dictInsert tag_count_dict tag 0
      dictInsert d tag ((dictFind d tag).getD 0 + 1))
    []

/-! Part 8: get_protocol_name (flow_log_parser.py lines 108-119) -/

/-- Embeds `get_protocol_name`: map the number through the `IPPROTO_*` table,
falling back to `f"Unknown Protocol (\x7bprotocol_num\x7d)"`. -/
def get_protocol_name (protocol_num : Int) : String :=
  match dictFind ipprotoTable protocol_num with
  | some name => name
  | none => "Unknown Protocol (" ++ pyIntStr protocol_num ++ ")"

/-! Part 9: get_port_protocol_counts (flow_log_parser.py lines 121-135) -/

/-- Loop body of `get_port_protocol_counts`: for each record resolve
`int(protocol)` to a display name and count by `(port, name)` with the
same increment idiom as `map_port_proto_tag`; a non-numeric protocol field
makes `int` raise `ValueError`, modelled as `Except.error`, which stops
the loop. -/
def port_proto_loop :
    List ((String × String) × Nat) → List (String × String) →
      Except String (List ((String × String) × Nat))
  | port_proto_dict, [] => Except.ok port_proto_dict
  | port_proto_dict, (port, protocol) :: rest =>
      match pyToInt protocol with
      | some n =>
          let protocol_name := get_protocol_name n
          let d :=
            match dictFind port_proto_dict (port, protocol_name) with
            | some _ => port_proto_dict
            | none => dictInsert port_proto_dict (port, protocol_name) 0
          port_proto_loop
            (dictInsert d (port, protocol_name)
              ((dictFind d (port, protocol_name)).getD 0 + 1)) rest
      | none =>
          Except.error ("invalid literal for int() with base 10: " ++ protocol)

/-- Embeds `get_port_protocol_counts`: run the counting loop over the
records starting from the empty dict. -/
def get_port_protocol_counts (port_protocol : List (String × String)) :
    Except String (List ((String × String) × Nat)) :=
  port_proto_loop [] port_protocol

/-! Part 10: derived forms used in the proofs -/

/-- Net effect of the counter-increment idiom of the Python code
(`if k not in d: d[k] = 0` followed by `d[k] += 1`). -/
def bump {K : Type} [DecidableEq K] (d : List (K × Nat)) (k : K) : List (K × Nat) :=
  dictInsert d k ((dictFind d k).getD 0 + 1)

/-- Specification view of `decDigits`, by well-founded recursion on `n`
(used only in proofs; extensionally equal to `decDigits` with enough fuel). -/
def decListSpec (n : Nat) : List Char :=
  if h : n = 0 then [] else decListSpec (n / 10) ++ [Nat.digitChar (n % 10)]
termination_by n
decreasing_by exact Nat.div_lt_self (Nat.pos_of_ne_zero h) (by omega)

/-! Part 11: dictionary lemmas -/

section DictLemmas

variable {K V : Type} [DecidableEq K]

theorem dictFind_dictInsert (d : List (K × V)) (k : K) (v : V) (k2 : K) :
    dictFind (dictInsert d k v) k2 = if k = k2 then some v else dictFind d k2 := by
  induction d with
  | nil => simp [dictInsert, dictFind]
  | cons p rest ih =>
      obtain ⟨k1, v1⟩ := p
      by_cases h1 : k1 = k
      · subst h1
        simp only [dictInsert, if_pos rfl, dictFind]
        by_cases h2 : k1 = k2 <;> simp [h2]
      · simp only [dictInsert, if_neg h1, dictFind, ih]
        by_cases h2 : k1 = k2 <;> by_cases h3 : k = k2 <;>
          first
          | exact absurd (h2.trans h3.symm) h1
          | simp [h2, h3]

theorem dictInsert_dictInsert (d : List (K × V)) (k : K) (v w : V) :
    dictInsert (dictInsert d k v) k w = dictInsert d k w := by
  induction d with
  | nil => simp [dictInsert]
  | cons p rest ih =>
      obtain ⟨k1, v1⟩ := p
      by_cases h1 : k1 = k
      · subst h1; simp [dictInsert]
      · simp [dictInsert, h1, ih]

theorem sumValues_cons (p : K × Nat) (d : List (K × Nat)) :
    sumValues (p :: d) = p.2 + sumValues d := by
  simp [sumValues]

theorem sumValues_bump (d : List (K × Nat)) (k : K) :
    sumValues (bump d k) = sumValues d + 1 := by
  induction d with
  | nil => simp [bump, dictInsert, dictFind, sumValues]
  | cons p rest ih =>
      obtain ⟨k1, v1⟩ := p
      by_cases h1 : k1 = k
      · subst h1
        simp [bump, dictFind, dictInsert, sumValues]
        omega
      · have hb : bump ((k1, v1) :: rest) k = (k1, v1) :: bump rest k := by
          simp [bump, dictFind, dictInsert, h1]
        rw [hb, sumValues_cons, sumValues_cons, ih]
        omega

theorem getD_bump (d : List (K × Nat)) (k k2 : K) :
    (dictFind (bump d k) k2).getD 0
      = (dictFind d k2).getD 0 + if k = k2 then 1 else 0 := by
  rw [bump, dictFind_dictInsert]
  by_cases h : k = k2
  · subst h; simp
  · simp [h]

end DictLemmas

/-! Part 12: counting by tag (map_port_proto_tag) -/

theorem map_port_proto_tag_eq (lookup : List ((String × String) × String))
    (records : List (String × String)) :
    map_port_proto_tag lookup records
      = records.foldl (fun d key => bump d (tagOf lookup key)) [] := by
  unfold map_port_proto_tag
  apply List.foldl_ext
  intro acc key _
  cases h : dictFind acc (tagOf lookup key) with
  | some v => simp [h, bump]
  | none => simp [h, bump, dictFind_dictInsert, dictInsert_dictInsert]

theorem foldl_bump_sumValues (lookup : List ((String × String) × String)) :
    ∀ (records : List (String × String)) (acc : List (String × Nat)),
      sumValues (records.foldl (fun d key => bump d (tagOf lookup key)) acc)
        = sumValues acc + records.length := by
  intro records
  induction records with
  | nil => intro acc; simp
  | cons r rest ih =>
      intro acc
      simp only [List.foldl_cons, ih, sumValues_bump, List.length_cons]
      omega

theorem foldl_bump_count (lookup : List ((String × String) × String))
    (t : String) :
    ∀ (records : List (String × String)) (acc : List (String × Nat)),
      (dictFind (records.foldl (fun d key => bump d (tagOf lookup key)) acc)
          t).getD 0
        = (dictFind acc t).getD 0
            + records.countP (fun key => tagOf lookup key = t) := by
  intro records
  induction records with
  | nil => intro acc; simp
  | cons r rest ih =>
      intro acc
      simp only [List.foldl_cons, ih, getD_bump, List.countP_cons]
      by_cases h : tagOf lookup r = t <;> simp [h] <;> omega

/-- C1: for every lookup table and every list of flow records, the sum of
all count values in the tag-count mapping returned by `map_port_proto_tag`
equals the length of the record list, regardless of how many records match
the table. -/
theorem c1_tag_counts_sum_to_record_count
    (lookup : List ((String × String) × String))
    (records : List (String × String)) :
    sumValues (map_port_proto_tag lookup records) = records.length := by
  rw [map_port_proto_tag_eq]
  have h := foldl_bump_sumValues lookup records []
  simpa [sumValues] using h

/-- C8: for every lookup table and every pair of record lists that are
permutations of each other, `map_port_proto_tag` assigns the same count to
every tag; record order affects only key insertion order, never counts. -/
theorem c8_tag_counts_perm_invariant
    (lookup : List ((String × String) × String))
    {l1 l2 : List (String × String)} (h : l1.Perm l2) (t : String) :
    (dictFind (map_port_proto_tag lookup l1) t).getD 0
      = (dictFind (map_port_proto_tag lookup l2) t).getD 0 := by
  rw [map_port_proto_tag_eq, map_port_proto_tag_eq,
    foldl_bump_count lookup t l1 [], foldl_bump_count lookup t l2 [],
    h.countP_eq]

/-- Witness for C8 at a concrete permutation pair. -/
theorem c8_tag_counts_perm_invariant_witness :
    (dictFind (map_port_proto_tag [(("80", "6"), "http")]
        [("80", "6"), ("443", "6")]) "untagged").getD 0
      = (dictFind (map_port_proto_tag [(("80", "6"), "http")]
          [("443", "6"), ("80", "6")]) "untagged").getD 0 :=
  c8_tag_counts_perm_invariant [(("80", "6"), "http")] (by decide) "untagged"

/-! Part 13: flow-log line parsing (C2) -/

theorem load_flow_lines_eq (lines : List String) :
    load_flow_lines lines = lines.filterMap parseLine := by
  have hext : load_flow_lines lines
      = lines.foldl (fun acc line => acc ++ (parseLine line).toList) [] := by
    unfold load_flow_lines
    apply List.foldl_ext
    intro acc line _
    by_cases h : 8 ≤ (pySplit line).length <;> simp [parseLine, h]
  rw [hext]
  suffices hgen : ∀ (ls : List String) (acc : List (String × String)),
      ls.foldl (fun acc line => acc ++ (parseLine line).toList) acc
        = acc ++ ls.filterMap parseLine by
    simpa using hgen lines []
  intro ls
  induction ls with
  | nil => intro acc; simp
  | cons line rest ih =>
      intro acc
      cases hp : parseLine line <;>
        simp [List.filterMap_cons, hp, ih]

/-- C2: a line whose whitespace split yields fewer than 8 fields is
excluded; one with 8 or more yields the record `(fields[6], fields[7])`
(the 7th and 8th fields, 1-indexed); the line loop is an order-preserving
`filterMap` of the per-line parse over the input lines. -/
theorem c2_parse_line_and_order (line : String) (lines : List String) :
    ((pySplit line).length < 8 → parseLine line = none) ∧
    (8 ≤ (pySplit line).length →
      parseLine line
        = some ((pySplit line).getD 6 "", (pySplit line).getD 7 "")) ∧
    load_flow_lines lines = lines.filterMap parseLine := by
  refine ⟨?_, ?_, load_flow_lines_eq lines⟩
  · intro h
    simp [parseLine, Nat.not_le.mpr h]
  · intro h
    simp [parseLine, h]

/-- Witness for C2: a 7-field line is skipped, a 14-field line yields
fields 7 and 8, and order is preserved over a mixed input. -/
theorem c2_parse_line_and_order_witness :
    parseLine "1 2 3 4 5 6 7" = none ∧
    parseLine "2 123 eni-1 10.0.0.1 10.0.0.2 443 49153 6 25 20000 1 2 ACCEPT OK"
      = some ("49153", "6") ∧
    load_flow_lines
      ["2 123 eni-1 10.0.0.1 10.0.0.2 443 49153 6 25 20000 1 2 ACCEPT OK",
       "1 2 3 4 5 6 7",
       "2 123 eni-2 10.0.0.3 10.0.0.4 443 25 17 25 20000 1 2 ACCEPT OK"]
      = [("49153", "6"), ("25", "17")] :=
  ⟨(c2_parse_line_and_order "1 2 3 4 5 6 7" []).1 (by decide),
   ((c2_parse_line_and_order
      "2 123 eni-1 10.0.0.1 10.0.0.2 443 49153 6 25 20000 1 2 ACCEPT OK"
      []).2.1 (by decide)).trans (by decide),
   ((c2_parse_line_and_order ""
      ["2 123 eni-1 10.0.0.1 10.0.0.2 443 49153 6 25 20000 1 2 ACCEPT OK",
       "1 2 3 4 5 6 7",
       "2 123 eni-2 10.0.0.3 10.0.0.4 443 25 17 25 20000 1 2 ACCEPT OK"]).2.2).trans
     (by decide)⟩

/-! Part 14: lookup-table loading (C5, C6) -/

theorem get_protocol_number_error_eq (name e : String)
    (h : get_protocol_number name = Except.error e) :
    e = "Invalid protocol name: " ++ name ++ "." := by
  unfold get_protocol_number at h
  cases hf : dictFind protocolRegistry name with
  | some n => rw [hf] at h; exact Except.noConfusion h
  | none =>
      rw [hf] at h
      injection h with h1
      exact h1.symm

theorem load_lookup_rows_filter (rows : List Row) :
    load_lookup_rows rows = load_lookup_rows (rows.filter resolvable) := by
  unfold load_lookup_rows
  suffices h : ∀ acc : List ((String × String) × String),
      rows.foldl
        (fun lookup r =>
          match get_protocol_number r.protocol with
          | Except.ok num => dictInsert lookup (r.dstport, num) (pyToLower r.tag)
          | Except.error _ => lookup) acc
        = (rows.filter resolvable).foldl
            (fun lookup r =>
              match get_protocol_number r.protocol with
              | Except.ok num =>
                  dictInsert lookup (r.dstport, num) (pyToLower r.tag)
              | Except.error _ => lookup) acc by
    exact h []
  induction rows with
  | nil => intro acc; simp
  | cons r rest ih =>
      intro acc
      cases hgp : get_protocol_number r.protocol with
      | ok num =>
          have hr : resolvable r = true := by simp [resolvable, hgp]
          simp [List.filter_cons, hr, hgp, ih]
      | error e =>
          have hr : resolvable r = false := by simp [resolvable, hgp]
          simp [List.filter_cons, hr, hgp, ih]

theorem lookup_diagnostics_eq (rows : List Row) :
    lookup_diagnostics rows
      = (rows.filter fun r => ! resolvable r).map
          (fun r => "Skipping invalid entry in lookup table: "
            ++ ("Invalid protocol name: " ++ r.protocol ++ ".")) := by
  induction rows with
  | nil => simp [lookup_diagnostics]
  | cons r rest ih =>
      cases hgp : get_protocol_number r.protocol with
      | ok num =>
          have hr : resolvable r = true := by simp [resolvable, hgp]
          simp [lookup_diagnostics, List.filterMap_cons, hgp, hr] at ih ⊢
          exact ih
      | error e =>
          have hr : resolvable r = false := by simp [resolvable, hgp]
          have he : e = "Invalid protocol name: " ++ r.protocol ++ "." :=
            get_protocol_number_error_eq r.protocol e hgp
          subst he
          simp [lookup_diagnostics, List.filterMap_cons, hgp, hr] at ih ⊢
          exact ih

/-- C5: a lookup source row whose protocol name fails resolution is
skipped (the table equals the table of the resolvable rows alone), with
one diagnostic per skipped row; all rows with resolvable protocol names
are loaded. -/
theorem c5_invalid_rows_skipped (rows : List Row) :
    load_lookup_rows rows = load_lookup_rows (rows.filter resolvable) ∧
    lookup_diagnostics rows
      = (rows.filter fun r => ! resolvable r).map
          (fun r => "Skipping invalid entry in lookup table: "
            ++ ("Invalid protocol name: " ++ r.protocol ++ ".")) :=
  ⟨load_lookup_rows_filter rows, lookup_diagnostics_eq rows⟩

/-- C6: the loaded table maps `(dstport, resolved number)` to the
lowercased tag of the LAST row producing that key: looking a key up finds
the first matching row of the reversed row list (last-write-wins). -/
theorem c6_last_write_wins (rows : List Row) (k : String × String) :
    dictFind (load_lookup_rows rows) k
      = (rows.reverse.find? fun r => rowKey r = some k).map
          (fun r => pyToLower r.tag) := by
  induction rows using List.reverseRecOn with
  | nil => simp [load_lookup_rows, dictFind]
  | append_singleton rs r ih =>
      cases hgp : get_protocol_number r.protocol with
      | ok num =>
          have hload : load_lookup_rows (rs ++ [r])
              = dictInsert (load_lookup_rows rs) (r.dstport, num)
                  (pyToLower r.tag) := by
            simp [load_lookup_rows, List.foldl_append, hgp]
          have hkey : rowKey r = some (r.dstport, num) := by
            simp [rowKey, hgp]
          rw [hload, dictFind_dictInsert, List.reverse_append]
          simp only [List.reverse_singleton, List.singleton_append]
          by_cases he : (r.dstport, num) = k
          · rw [List.find?_cons_of_pos _ (by simp [hkey, he]), if_pos he]
            simp
          · rw [List.find?_cons_of_neg _ (by simp [hkey, he]), if_neg he, ih]
      | error e =>
          have hload : load_lookup_rows (rs ++ [r]) = load_lookup_rows rs := by
            simp [load_lookup_rows, List.foldl_append, hgp]
          have hkey : rowKey r = none := by simp [rowKey, hgp]
          rw [hload, List.reverse_append]
          simp only [List.reverse_singleton, List.singleton_append]
          rw [List.find?_cons_of_neg _ (by simp [hkey]), ih]

/-! Part 15: resource-level versus row-level failures (C9) -/

/-- C9: malformed rows and lines are recovered locally with a diagnostic
(the loaders succeed on EVERY readable source, emitting one message per
malformed row/line), while an unreadable source aborts the load and
propagates as the re-raised read failure. -/
theorem c9_row_recovery_resource_abort
    (src1 : Except String (List Row)) (src2 : Except String (List String)) :
    (∀ rows, src1 = Except.ok rows →
      load_lookup_table src1
        = Except.ok (load_lookup_rows rows, lookup_diagnostics rows)) ∧
    (∀ e, src1 = Except.error e →
      load_lookup_table src1
        = Except.error ("Failed to read the lookup table file: " ++ e)) ∧
    (∀ lines, src2 = Except.ok lines →
      load_dstport_protocol_flow_logs src2
        = Except.ok (load_flow_lines lines, flow_diagnostics lines)) ∧
    (∀ e, src2 = Except.error e →
      load_dstport_protocol_flow_logs src2
        = Except.error ("Failed to read the flow log file: " ++ e)) ∧
    (∀ lines : List String, flow_diagnostics lines
        = (lines.filter fun l => (pySplit l).length < 8).map
            (fun l => "Skipping incomplete line: " ++ pyStrip l)) := by
  refine ⟨?_, ?_, ?_, ?_, ?_⟩
  · intro rows h; subst h; rfl
  · intro e h; subst h; rfl
  · intro lines h; subst h; rfl
  · intro e h; subst h; rfl
  · intro lines
    induction lines with
    | nil => simp [flow_diagnostics]
    | cons l rest ih =>
        by_cases h : 8 ≤ (pySplit l).length
        · simp [flow_diagnostics, List.filterMap_cons, h, Nat.not_lt.mpr h] at ih ⊢
          exact ih
        · have h2 : (pySplit l).length < 8 := Nat.not_le.mp h
          simp [flow_diagnostics, List.filterMap_cons, h, h2] at ih ⊢
          exact ih

/-- Witness for C9: a readable source with one bad row still loads and
reports a diagnostic; an unreadable flow-log source aborts with the
re-raised error. -/
theorem c9_row_recovery_resource_abort_witness :
    load_lookup_table
        (Except.ok [⟨"80", "TCP", "HTTP"⟩, ⟨"443", "BOGUS", "x"⟩])
      = Except.ok ([(("80", "6"), "http")],
          ["Skipping invalid entry in lookup table: Invalid protocol name: BOGUS."]) ∧
    load_dstport_protocol_flow_logs (Except.error "No such file or directory")
      = Except.error
          "Failed to read the flow log file: No such file or directory" :=
  ⟨((c9_row_recovery_resource_abort
      (Except.ok [⟨"80", "TCP", "HTTP"⟩, ⟨"443", "BOGUS", "x"⟩])
      (Except.error "No such file or directory")).1 _ rfl).trans (by rfl),
   ((c9_row_recovery_resource_abort
      (Except.ok [⟨"80", "TCP", "HTTP"⟩, ⟨"443", "BOGUS", "x"⟩])
      (Except.error "No such file or directory")).2.2.2.1 _ rfl).trans (by rfl)⟩

/-! Part 16: protocol name/number resolution (C3, C4) -/

/-- C3: every well-known protocol number round-trips — `get_protocol_name`
returns the canonical name and `get_protocol_number` returns the decimal
string of the number — and every number outside the known table yields the
synthesized placeholder string instead of failing. -/
theorem c3_protocol_resolution_roundtrip (name : String) (num : Nat) (n : Int)
    (hmem : (name, num) ∈ wellKnownProtocols)
    (hunk : dictFind ipprotoTable n = none) :
    get_protocol_name (num : Int) = name ∧
    get_protocol_number name = Except.ok (pyNatStr num) ∧
    get_protocol_name n = "Unknown Protocol (" ++ pyIntStr n ++ ")" := by
  refine ⟨?_, ?_, ?_⟩
  · fin_cases hmem <;> rfl
  · fin_cases hmem <;> rfl
  · simp [get_protocol_name, hunk]

/-- Witness for C3 at TCP = 6 and the unrecognized number 999. -/
theorem c3_protocol_resolution_roundtrip_witness :
    (("TCP", 6) ∈ wellKnownProtocols ∧ dictFind ipprotoTable 999 = none) ∧
    get_protocol_name 6 = "TCP" ∧
    get_protocol_number "TCP" = Except.ok "6" ∧
    get_protocol_name 999 = "Unknown Protocol (999)" := by
  have h := c3_protocol_resolution_roundtrip "TCP" 6 999 (by decide) (by decide)
  exact ⟨⟨by decide, by decide⟩, h.1, h.2.1.trans (by rfl), h.2.2.trans (by rfl)⟩

/-- C4: a protocol name absent from the registry makes
`get_protocol_number` fail with the `ValueError` message (and it never
returns a value); the function is pure, so failing has no side effects. -/
theorem c4_unrecognized_name_raises (name : String)
    (h : dictFind protocolRegistry name = none) :
    get_protocol_number name
      = Except.error ("Invalid protocol name: " ++ name ++ ".") ∧
    ∀ v, get_protocol_number name ≠ Except.ok v := by
  have he : get_protocol_number name
      = Except.error ("Invalid protocol name: " ++ name ++ ".") := by
    unfold get_protocol_number
    rw [h]
  refine ⟨he, fun v hv => ?_⟩
  rw [he] at hv
  exact Except.noConfusion hv

/-- Witness for C4 at a concrete unrecognized name. -/
theorem c4_unrecognized_name_raises_witness :
    dictFind protocolRegistry "INVALID_PROTOCOL" = none ∧
    get_protocol_number "INVALID_PROTOCOL"
      = Except.error "Invalid protocol name: INVALID_PROTOCOL." :=
  ⟨by decide,
   ((c4_unrecognized_name_raises "INVALID_PROTOCOL" (by decide)).1).trans
     (by rfl)⟩

/-! Part 17: non-numeric protocol fields abort the per-port counts (C10) -/

/-- C10: the line parser accepts any 8th field, numeric or not, but
`get_port_protocol_counts` is total only on numeric protocol fields: a
line with 14 fields whose 8th field is `"tcp"` is included by the parser,
and the counting step then raises `ValueError` at `int(protocol)` instead
of producing a count or skipping the record. -/
theorem c10_nonnumeric_protocol_aborts_counts :
    parseLine "2 123 eni-1 10.0.0.1 10.0.0.2 443 80 tcp 25 20000 1 2 ACCEPT OK"
      = some ("80", "tcp") ∧
    load_flow_lines
        ["2 123 eni-1 10.0.0.1 10.0.0.2 443 80 tcp 25 20000 1 2 ACCEPT OK"]
      = [("80", "tcp")] ∧
    pyToInt "tcp" = none ∧
    get_port_protocol_counts [("80", "tcp")]
      = Except.error "invalid literal for int() with base 10: tcp" :=
  ⟨by decide, by decide, by decide, by rfl⟩

/-! Part 18: the decimal placeholder embeds the number injectively (C7) -/

theorem decListSpec_def (n : Nat) :
    decListSpec n
      = if n = 0 then [] else decListSpec (n / 10) ++ [Nat.digitChar (n % 10)] := by
  rw [decListSpec]
  by_cases h : n = 0 <;> simp [h]

theorem decDigits_eq_spec : ∀ fuel n : Nat, n ≤ fuel → decDigits fuel n = decListSpec n := by
  intro fuel
  induction fuel with
  | zero =>
      intro n hn
      have h0 : n = 0 := Nat.le_zero.mp hn
      subst h0
      simp [decDigits, decListSpec_def]
  | succ f ih =>
      intro n hn
      by_cases h : n = 0
      · subst h
        simp [decDigits, decListSpec_def]
      · have hdiv : n / 10 ≤ f := by
          have h1 : n / 10 < n := Nat.div_lt_self (Nat.pos_of_ne_zero h) (by omega)
          omega
        simp only [decDigits]
        rw [if_neg h, ih _ hdiv, decListSpec_def n, if_neg h]

theorem decListSpec_eq_nil (n : Nat) : decListSpec n = [] ↔ n = 0 := by
  constructor
  · intro h
    by_contra hn
    rw [decListSpec_def, if_neg hn] at h
    simp at h
  · intro h
    subst h
    simp [decListSpec_def]

theorem digitChar_inj {a b : Nat} (ha : a < 10) (hb : b < 10)
    (h : Nat.digitChar a = Nat.digitChar b) : a = b := by
  interval_cases a <;> interval_cases b <;> revert h <;> decide

theorem decListSpec_inj : ∀ a b : Nat, 0 < a → 0 < b →
    decListSpec a = decListSpec b → a = b := by
  intro a
  induction a using Nat.strong_induction_on with
  | _ a ih =>
      intro b ha hb h
      rw [decListSpec_def a, if_neg (by omega)] at h
      rw [decListSpec_def b, if_neg (by omega)] at h
      obtain ⟨h1, h2⟩ := List.append_inj' h (by simp)
      have hmod : a % 10 = b % 10 := by
        have hc := (List.cons.inj h2).1
        exact digitChar_inj (Nat.mod_lt _ (by omega)) (Nat.mod_lt _ (by omega)) hc
      by_cases hd : a / 10 = 0
      · rw [hd] at h1
        have h0 : decListSpec (b / 10) = [] := by
          rw [← h1]
          simp [decListSpec_def]
        have hb0 : b / 10 = 0 := (decListSpec_eq_nil _).mp h0
        omega
      · have hbd : b / 10 ≠ 0 := by
          intro hb0
          rw [hb0] at h1
          have h0 : decListSpec (a / 10) = [] := by
            rw [h1]
            simp [decListSpec_def]
          exact hd ((decListSpec_eq_nil _).mp h0)
        have hdiv : a / 10 = b / 10 :=
          ih (a / 10) (Nat.div_lt_self ha (by omega)) (b / 10)
            (Nat.pos_of_ne_zero hd) (Nat.pos_of_ne_zero hbd) h1
        omega

theorem decListSpec_ne_single_zero (b : Nat) (hb : b ≠ 0) :
    decListSpec b ≠ ['0'] := by
  intro h
  rw [decListSpec_def, if_neg hb] at h
  have h' : decListSpec (b / 10) ++ [Nat.digitChar (b % 10)]
      = ([] : List Char) ++ ['0'] := by simpa using h
  obtain ⟨h1, h2⟩ := List.append_inj' h' (by simp)
  have hmod : b % 10 = 0 := by
    have hc : Nat.digitChar (b % 10) = Nat.digitChar 0 := by
      simpa using (List.cons.inj h2).1
    exact digitChar_inj (Nat.mod_lt _ (by omega)) (by omega) hc
  have hdiv : b / 10 = 0 := (decListSpec_eq_nil _).mp h1
  omega

theorem natChars_inj {a b : Nat} (h : natChars a = natChars b) : a = b := by
  by_cases ha : a = 0 <;> by_cases hb : b = 0
  · omega
  · exfalso
    unfold natChars at h
    rw [if_pos ha, if_neg hb, decDigits_eq_spec b b le_rfl] at h
    exact decListSpec_ne_single_zero b hb h.symm
  · exfalso
    unfold natChars at h
    rw [if_neg ha, if_pos hb, decDigits_eq_spec a a le_rfl] at h
    exact decListSpec_ne_single_zero a ha h
  · unfold natChars at h
    rw [if_neg ha, if_neg hb, decDigits_eq_spec a a le_rfl,
      decDigits_eq_spec b b le_rfl] at h
    exact decListSpec_inj a b (Nat.pos_of_ne_zero ha) (Nat.pos_of_ne_zero hb) h

theorem digitChar_ne_dash {k : Nat} (hk : k < 10) : Nat.digitChar k ≠ '-' := by
  interval_cases k <;> decide

theorem dash_not_mem_decListSpec : ∀ n : Nat, '-' ∉ decListSpec n := by
  intro n
  induction n using Nat.strong_induction_on with
  | _ n ih =>
      by_cases h : n = 0
      · subst h
        simp [decListSpec_def]
      · rw [decListSpec_def, if_neg h]
        intro hmem
        rcases List.mem_append.mp hmem with hmem1 | hmem2
        · exact ih (n / 10) (Nat.div_lt_self (Nat.pos_of_ne_zero h) (by omega)) hmem1
        · have hc : '-' = Nat.digitChar (n % 10) := by simpa using hmem2
          exact digitChar_ne_dash (Nat.mod_lt _ (by omega)) hc.symm

theorem dash_not_mem_natChars (n : Nat) : '-' ∉ natChars n := by
  unfold natChars
  by_cases h : n = 0
  · simp [h]
  · rw [if_neg h, decDigits_eq_spec n n le_rfl]
    exact dash_not_mem_decListSpec n

theorem intChars_inj {a b : Int} (h : intChars a = intChars b) : a = b := by
  unfold intChars at h
  by_cases ha : a < 0 <;> by_cases hb : b < 0
  · rw [if_pos ha, if_pos hb] at h
    have hn := natChars_inj (List.cons.inj h).2
    omega
  · rw [if_pos ha, if_neg hb] at h
    exfalso
    apply dash_not_mem_natChars b.natAbs
    rw [← h]
    exact List.mem_cons_self _ _
  · rw [if_neg ha, if_pos hb] at h
    exfalso
    apply dash_not_mem_natChars a.natAbs
    rw [h]
    exact List.mem_cons_self _ _
  · rw [if_neg ha, if_neg hb] at h
    have hn := natChars_inj h
    omega

theorem string_data_append (s t : String) : (s ++ t).data = s.data ++ t.data :=
  rfl

theorem unknown_placeholder_inj {a b : Int}
    (h : "Unknown Protocol (" ++ pyIntStr a ++ ")"
        = "Unknown Protocol (" ++ pyIntStr b ++ ")") : a = b := by
  have hd := congrArg String.data h
  rw [string_data_append, string_data_append, string_data_append,
    string_data_append, List.append_assoc, List.append_assoc] at hd
  have h3 := List.append_cancel_left hd
  obtain ⟨h4, _⟩ := List.append_inj' h3 rfl
  exact intChars_inj h4

theorem get_protocol_name_unknown_inj {n1 n2 : Int}
    (u1 : dictFind ipprotoTable n1 = none)
    (u2 : dictFind ipprotoTable n2 = none) :
    get_protocol_name n1 = get_protocol_name n2 ↔ n1 = n2 := by
  constructor
  · intro h
    simp only [get_protocol_name, u1, u2] at h
    exact unknown_placeholder_inj h
  · intro h
    rw [h]

theorem port_proto_counts_two (port s1 s2 : String) (n1 n2 : Int)
    (h1 : pyToInt s1 = some n1) (h2 : pyToInt s2 = some n2) :
    get_port_protocol_counts [(port, s1), (port, s2)]
      = if get_protocol_name n1 = get_protocol_name n2
        then Except.ok [((port, get_protocol_name n1), 2)]
        else Except.ok [((port, get_protocol_name n1), 1),
              ((port, get_protocol_name n2), 1)] := by
  by_cases hname : get_protocol_name n1 = get_protocol_name n2
  · simp [get_port_protocol_counts, port_proto_loop, h1, h2, dictFind,
      dictInsert, hname]
  · simp [get_port_protocol_counts, port_proto_loop, h1, h2, dictFind,
      dictInsert, hname, Ne.symm hname]

/-- C7: two same-port records whose protocol fields both resolve to
unknown-placeholder names are merged into one counter by
`get_port_protocol_counts` if and only if their protocol values denote the
literally identical number; distinct unknown numbers are never merged,
because the placeholder string embeds the number injectively. -/
theorem c7_unknown_numbers_merge_iff_equal (port s1 s2 : String) (n1 n2 : Int)
    (h1 : pyToInt s1 = some n1) (h2 : pyToInt s2 = some n2)
    (u1 : dictFind ipprotoTable n1 = none)
    (u2 : dictFind ipprotoTable n2 = none) :
    (get_protocol_name n1 = get_protocol_name n2 ↔ n1 = n2) ∧
    (get_port_protocol_counts [(port, s1), (port, s2)]
        = Except.ok [((port, get_protocol_name n1), 2)] ↔ n1 = n2) ∧
    (n1 ≠ n2 →
      get_port_protocol_counts [(port, s1), (port, s2)]
        = Except.ok [((port, get_protocol_name n1), 1),
            ((port, get_protocol_name n2), 1)]) := by
  have hinj := get_protocol_name_unknown_inj u1 u2
  have hcount := port_proto_counts_two port s1 s2 n1 n2 h1 h2
  refine ⟨hinj, ⟨?_, ?_⟩, ?_⟩
  · intro h
    by_contra hne
    have hname : get_protocol_name n1 ≠ get_protocol_name n2 :=
      fun e => hne (hinj.mp e)
    rw [hcount, if_neg hname] at h
    have hl := Except.ok.inj h
    simp at hl
  · intro h
    rw [hcount, if_pos (hinj.mpr h)]
  · intro hne
    have hname : get_protocol_name n1 ≠ get_protocol_name n2 :=
      fun e => hne (hinj.mp e)
    rw [hcount, if_neg hname]

/-- Witness for C7: ports 255 and 254 are both unknown; the two records
stay in two separate counters. -/
theorem c7_unknown_numbers_merge_iff_equal_witness :
    (pyToInt "255" = some 255 ∧ pyToInt "254" = some 254 ∧
      dictFind ipprotoTable 255 = none ∧ dictFind ipprotoTable 254 = none) ∧
    get_port_protocol_counts [("80", "255"), ("80", "254")]
      = Except.ok [(("80", "Unknown Protocol (255)"), 1),
          (("80", "Unknown Protocol (254)"), 1)] := by
  have h := c7_unknown_numbers_merge_iff_equal "80" "255" "254" 255 254
    (by decide) (by decide) (by decide) (by decide)
  exact ⟨⟨by decide, by decide, by decide, by decide⟩,
    (h.2.2 (by decide)).trans (by rfl)⟩

end FlowLog
